import Mathlib

/-!
Shallow embedding of `src/IrisVector.rs` — a sparse, typed, region-based
vector container (integer / fixed-point decimal / double) with presence
bitmaps and a fixed-layout header.

Modelling conventions:
* Rust `u8`/`u16`/`u32` values are `Nat`s kept below their bound by
  construction; where the source performs a wrapping cast (`index as u16`)
  or a wrapping increment (`count += 1` on `u32`, release semantics) the
  model applies the corresponding `% 2 ^ w`.
* Rust `i64` is `Int`; the saturating float-to-integer `as i64` cast is
  modelled by truncation toward zero followed by clamping to the `i64`
  range (`rat_as_i64`).
* Rust `f64` values are modelled as exact rationals (`ℚ`). Properties that
  depend on IEEE-754 rounding of `f64` arithmetic are outside this
  embedding and are treated as such.
* A Rust panic (out-of-bounds indexing of a fixed array or of the regions
  `Vec`) is modelled as `Option.none`; a returned `Err` carries the
  possibly-mutated receiver state, mirroring `&mut self` semantics.
-/

namespace IrisVector

/-- Type constants for the different vector types (`VEC_TYPE_INT` etc.). -/
def VEC_TYPE_INT : Nat := 0

def VEC_TYPE_DECIMAL : Nat := 1

def VEC_TYPE_DOUBLE : Nat := 2

/-- `VECTOR_MAGIC : u16 = 0x8B00`. -/
def VECTOR_MAGIC : Nat := 0x8B00

def VEC_NUM_REGIONS : Nat := 64

def REGION_SIZE : Nat := 1024

def BITMAP_SIZE_BYTES : Nat := 128

/-- The `VectorHeader` struct: all fields as in the source; `stats` has 19
entries and `regmap` has `VEC_NUM_REGIONS = 64` entries. -/
structure VectorHeader where
  type_field : Nat
  format : Nat
  version : Nat
  first : Nat
  last : Nat
  count : Nat
  dic_offset : Nat
  dic_length : Nat
  refs : Nat
  uflags : Nat
  vflags : Nat
  stats : List Nat
  regmap : List Nat
deriving DecidableEq

/-- The `VectorRegion` enum: each variant is a `DenseRegion` (128-byte
bitmap plus 1024 data slots) of the corresponding scalar representation.
Integer slots are `i64` (`Int`), decimal slots are 9-byte encodings
(`List Nat`), double slots are `f64` modelled as `ℚ`. -/
inductive VectorRegion where
  | Integer (bitmap : List Nat) (data : List Int)
  | Decimal (bitmap : List Nat) (data : List (List Nat))
  | Double (bitmap : List Nat) (data : List ℚ)
deriving DecidableEq

/-- The `Vector` struct: a header plus a growable list of optional regions. -/
structure Vector where
  header : VectorHeader
  regions : List (Option VectorRegion)
deriving DecidableEq

/-- Macro `get_vector_type!`: `(header.type_field & 0xFF) as u8`. -/
def get_vector_type (h : VectorHeader) : Nat := h.type_field &&& 0xFF

/-- Macro `is_type!`: the header's type tag equals the given tag. -/
def is_type (h : VectorHeader) (t : Nat) : Bool := get_vector_type h == t

/-- Macro `set_vector_type!`: `header.type_field = VECTOR_MAGIC | type`. -/
def set_vector_type (h : VectorHeader) (t : Nat) : VectorHeader :=
  { h with type_field := VECTOR_MAGIC ||| t }

/-- Macro `has_type!`: `(header.type_field & VECTOR_MAGIC) == VECTOR_MAGIC`. -/
def has_type (h : VectorHeader) : Bool :=
  h.type_field &&& VECTOR_MAGIC == VECTOR_MAGIC

/-- `set_bitmap_bit`: sets or clears bit `offset % 8` of byte `offset / 8`.
The `!` complement of the `u8` mask is `255 ^^^ mask`. -/
def set_bitmap_bit (bitmap : List Nat) (offset : Nat) (value : Bool) : List Nat :=
  let byte_index := offset / 8
  let bit_index := offset % 8
  if value then
    bitmap.set byte_index (bitmap.getD byte_index 0 ||| (1 <<< bit_index))
  else
    bitmap.set byte_index (bitmap.getD byte_index 0 &&& (255 ^^^ (1 <<< bit_index)))

def i64_MIN : Int := -(2 ^ 63)

def i64_MAX : Int := 2 ^ 63 - 1

/-- Truncation of a rational toward zero, as the mathematical content of
Rust's float-to-integer cast. -/
def rat_trunc (q : ℚ) : Int := if 0 ≤ q then q.floor else -((-q).floor)

/-- Rust's saturating `as i64` cast applied to an exact (rational) value:
truncate toward zero, then clamp into the `i64` range. -/
def rat_as_i64 (q : ℚ) : Int := max i64_MIN (min i64_MAX (rat_trunc q))

/-- The big-endian byte extraction loop of `convert_to_fixed_point`:
`result[8-i] = (abs_value >> (i*8)) as u8` for `i = 0..8`, listed from
`result[1]` (most significant) to `result[8]` (least significant). -/
def beBytes8 (n : Nat) : List Nat :=
  [n >>> 56 &&& 255, n >>> 48 &&& 255, n >>> 40 &&& 255, n >>> 32 &&& 255,
   n >>> 24 &&& 255, n >>> 16 &&& 255, n >>> 8 &&& 255, n &&& 255]

/-- `convert_to_fixed_point`: scale by `10^scale`, cast to `i64`
(truncating/saturating), store sign byte then the 8 magnitude bytes
big-endian. `scaled_value.abs()` is modelled by `Int.natAbs`, which on
`i64::MIN` agrees with the release-mode wrapping result reinterpreted as a
magnitude (`2^63`). Always returns `Ok`. -/
def convert_to_fixed_point (value : ℚ) (scale : Nat) : Except String (List Nat) :=
  let scaled_value : Int := rat_as_i64 (value * (10 : ℚ) ^ scale)
  let sign : Nat := if scaled_value < 0 then 1 else 0
  let abs_value : Nat := scaled_value.natAbs
  Except.ok (sign :: beBytes8 abs_value)

/-- The reconstruction loop of `convert_from_fixed_point`:
`value = (value << 8) | bytes[i]` over the 8 magnitude bytes. -/
def beCombine (bytes : List Nat) : Nat :=
  bytes.foldl (fun acc b => (acc <<< 8) ||| b) 0

/-- `convert_from_fixed_point`: sign from byte 0, 64-bit magnitude from
bytes 1..8 (big-endian, accumulated in an `i64`, hence reduced mod `2^64`
and reinterpreted as two's complement), divided by `10^scale`. -/
def convert_from_fixed_point (bytes : List Nat) (scale : Nat) : ℚ :=
  let sign : ℚ := if bytes.getD 0 0 = 0 then 1 else -1
  let u : Nat := beCombine (bytes.drop 1) % 2 ^ 64
  let value : Int := if u < 2 ^ 63 then (u : Int) else (u : Int) - 2 ^ 64
  sign * (value : ℚ) / (10 : ℚ) ^ scale

/-- `Vector::new()`: zeroed header except `vflags = 1`; empty region list. -/
def Vector.new : Vector :=
  { header :=
      { type_field := 0
        format := 0
        version := 0
        first := 0
        last := 0
        count := 0
        dic_offset := 0
        dic_length := 0
        refs := 0
        uflags := 0
        vflags := 1
        stats := List.replicate 19 0
        regmap := List.replicate VEC_NUM_REGIONS 0 }
    regions := [] }

/-- `type_str.to_lowercase()`: ASCII case folding, modelled character by
character (kept executable by kernel reduction). -/
def to_lowercase (s : String) : String := String.mk (s.data.map Char.toLower)

/-- `Vector::type_from_str`: case-insensitive parse of the type name. -/
def type_from_str (type_str : String) : Option Nat :=
  if to_lowercase type_str = "integer" then some VEC_TYPE_INT
  else if to_lowercase type_str = "decimal" then some VEC_TYPE_DECIMAL
  else if to_lowercase type_str = "double" then some VEC_TYPE_DOUBLE
  else none

/-- `Vector::get_region_info`: `(index / REGION_SIZE, index % REGION_SIZE)`. -/
def Vector.get_region_info (_v : Vector) (index : Nat) : Nat × Nat :=
  (index / REGION_SIZE, index % REGION_SIZE)

/-- `Vector::update_header_for_set`: `count += 1` (u32, wrapping),
`first = first.min(index as u16)`, `last = last.max(index as u16)`. -/
def update_header_for_set (v : Vector) (index : Nat) : Vector :=
  { v with header :=
      { v.header with
          count := (v.header.count + 1) % 2 ^ 32
          first := min v.header.first (index % 2 ^ 16)
          last := max v.header.last (index % 2 ^ 16) } }

/-- The `while self.regions.len() <= region_index { self.regions.push(None) }`
loop: append `None` slots until the list has length `region_index + 1`. -/
def growTo (regions : List (Option VectorRegion)) (region_index : Nat) :
    List (Option VectorRegion) :=
  regions ++ List.replicate (region_index + 1 - regions.length) none

/-- The fresh-region construction of `ensure_region`, by type tag:
all-zero bitmap, default-initialized data slots. `none` is the
`_ => return Err("Unsupported vector type")` arm. -/
def mkRegion (t : Nat) : Option VectorRegion :=
  if t = VEC_TYPE_INT then
    some (VectorRegion.Integer (List.replicate BITMAP_SIZE_BYTES 0)
      (List.replicate REGION_SIZE 0))
  else if t = VEC_TYPE_DECIMAL then
    some (VectorRegion.Decimal (List.replicate BITMAP_SIZE_BYTES 0)
      (List.replicate REGION_SIZE (List.replicate 9 0)))
  else if t = VEC_TYPE_DOUBLE then
    some (VectorRegion.Double (List.replicate BITMAP_SIZE_BYTES 0)
      (List.replicate REGION_SIZE 0))
  else none

/-- `Vector::ensure_region`: grow the region list, then allocate a region of
the vector's type if the slot is empty and mark `regmap[region_index] = 1`.
The `regmap` write indexes a fixed `[u16; 64]`: for `region_index ≥ 64` the
source panics, modelled as `none`. An `Err` carries the already-grown state,
as the Rust `&mut self` would. -/
def Vector.ensure_region (v : Vector) (region_index : Nat) :
    Option (Except String Unit × Vector) :=
  let regions := growTo v.regions region_index
  let v1 : Vector := { v with regions := regions }
  if (regions.getD region_index none).isSome then some (Except.ok (), v1)
  else
    match mkRegion (get_vector_type v1.header) with
    | none => some (Except.error "Unsupported vector type", v1)
    | some r =>
      if region_index < VEC_NUM_REGIONS then
        some (Except.ok (),
          { v1 with
              regions := regions.set region_index (some r),
              header := { v1.header with
                regmap := v1.header.regmap.set region_index 1 } })
      else none

/-- `Vector::set_value`: resolve the region, ensure it exists, then write the
value in the region's native representation, set the presence bit, and update
the header. The `if let` arms that do not match fall through as no-ops but
still reach `update_header_for_set`, as in the source. -/
def Vector.set_value (v : Vector) (index : Nat) (value : ℚ) :
    Option (Except String Unit × Vector) :=
  let region_index := (v.get_region_info index).1
  let offset := (v.get_region_info index).2
  match v.ensure_region region_index with
  | none => none
  | some (Except.error e, v1) => some (Except.error e, v1)
  | some (Except.ok _, v1) =>
    let float_val : ℚ := value
    let t := get_vector_type v1.header
    if t = VEC_TYPE_INT then
      let v2 :=
        match v1.regions.getD region_index none with
        | some (VectorRegion.Integer bm data) =>
          let r := VectorRegion.Integer (set_bitmap_bit bm offset true)
            (data.set offset (rat_as_i64 float_val))
          { v1 with regions := v1.regions.set region_index (some r) }
        | _ => v1
      some (Except.ok (), update_header_for_set v2 index)
    else if t = VEC_TYPE_DECIMAL then
      match v1.regions.getD region_index none with
      | some (VectorRegion.Decimal bm data) =>
        match convert_to_fixed_point float_val 4 with
        | Except.error e => some (Except.error e, v1)
        | Except.ok decimal_bytes =>
          let r := VectorRegion.Decimal (set_bitmap_bit bm offset true)
            (data.set offset decimal_bytes)
          let v2 := { v1 with regions := v1.regions.set region_index (some r) }
          some (Except.ok (), update_header_for_set v2 index)
      | _ => some (Except.ok (), update_header_for_set v1 index)
    else if t = VEC_TYPE_DOUBLE then
      let v2 :=
        match v1.regions.getD region_index none with
        | some (VectorRegion.Double bm data) =>
          let r := VectorRegion.Double (set_bitmap_bit bm offset true)
            (data.set offset float_val)
          { v1 with regions := v1.regions.set region_index (some r) }
        | _ => v1
      some (Except.ok (), update_header_for_set v2 index)
    else some (Except.error "Unsupported type operation", v1)

/-- `Vector::set`: parse the type name, lock or check the vector's type, then
delegate to `set_value`. -/
def Vector.set (v : Vector) (index : Nat) (type_str : String) (value : ℚ) :
    Option (Except String Unit × Vector) :=
  match type_from_str type_str with
  | none => some (Except.error "Invalid vector type specified", v)
  | some vector_type =>
    if !has_type v.header then
      Vector.set_value { v with header := set_vector_type v.header vector_type }
        index value
    else if !is_type v.header vector_type then
      some (Except.error "Cannot change vector type after initialization", v)
    else
      v.set_value index value

/-- `Vector::get_decimal`: resolve `(region_index, offset)`, read the region.
The source indexes `self.regions[region_index]` directly: when
`region_index ≥ regions.len()` (in particular on a fresh vector with an empty
region list) this panics, modelled as `none`. -/
def Vector.get_decimal (v : Vector) (index : Nat) : Option (Except String ℚ) :=
  let region_index := (v.get_region_info index).1
  let offset := (v.get_region_info index).2
  if region_index < v.regions.length then
    match v.regions.getD region_index none with
    | some (VectorRegion.Decimal bm data) =>
      let byte_index := offset / 8
      let bit_index := offset % 8
      if bm.getD byte_index 0 &&& (1 <<< bit_index) ≠ 0 then
        some (Except.ok (convert_from_fixed_point
          (data.getD offset (List.replicate 9 0)) 4))
      else some (Except.error "No value set at this index")
    | _ => some (Except.error "Not a decimal vector or region not initialized")
  else none

/-! ### Observation helpers over the model -/

/-- The final state of a `set` call; the receiver is returned unchanged when
the call panics (a panic aborts, leaving no state to observe). -/
def Vector.setD (v : Vector) (index : Nat) (type_str : String) (value : ℚ) :
    Vector :=
  match v.set index type_str value with
  | some (_, v1) => v1
  | none => v

/-- Run a sequence of `set` calls from a starting state; `none` unless every
call returns `Ok`. -/
def runSets (v : Vector) : List (Nat × String × ℚ) → Option Vector
  | [] => some v
  | (i, ts, x) :: rest =>
    match v.set i ts x with
    | some (Except.ok _, v1) => runSets v1 rest
    | _ => none

/-- Maximum of a list of naturals (0 for the empty list). -/
def listMax (l : List Nat) : Nat := l.foldl max 0

/-- A stored slot payload, by region kind. -/
inductive SlotVal where
  | int (n : Int)
  | dec (bytes : List Nat)
  | dbl (q : ℚ)
deriving DecidableEq

/-- The presence-bit test of `get_decimal`:
`bitmap[offset / 8] & (1 << offset % 8) != 0`. -/
def bitTest (bm : List Nat) (offset : Nat) : Bool :=
  bm.getD (offset / 8) 0 &&& (1 <<< (offset % 8)) != 0

/-- The presence bit at a global index, over any region kind; `false` when
the region is absent. -/
def presentAt (v : Vector) (index : Nat) : Bool :=
  match v.regions.getD (index / REGION_SIZE) none with
  | some (VectorRegion.Integer bm _) => bitTest bm (index % REGION_SIZE)
  | some (VectorRegion.Decimal bm _) => bitTest bm (index % REGION_SIZE)
  | some (VectorRegion.Double bm _) => bitTest bm (index % REGION_SIZE)
  | none => false

/-- The stored slot payload at a global index; `none` when the region is
absent. -/
def slotAt (v : Vector) (index : Nat) : Option SlotVal :=
  match v.regions.getD (index / REGION_SIZE) none with
  | some (VectorRegion.Integer _ data) =>
    some (SlotVal.int (data.getD (index % REGION_SIZE) 0))
  | some (VectorRegion.Decimal _ data) =>
    some (SlotVal.dec (data.getD (index % REGION_SIZE) (List.replicate 9 0)))
  | some (VectorRegion.Double _ data) =>
    some (SlotVal.dbl (data.getD (index % REGION_SIZE) 0))
  | none => none

/-- The native representation `set` stores for type tag `t` and input `x`. -/
def encodedSlot (t : Nat) (x : ℚ) : SlotVal :=
  if t = VEC_TYPE_INT then SlotVal.int (rat_as_i64 x)
  else if t = VEC_TYPE_DECIMAL then
    SlotVal.dec
      (match convert_to_fixed_point x 4 with
       | Except.ok b => b
       | Except.error _ => List.replicate 9 0)
  else SlotVal.dbl x

/-- Encode followed by decode at scale 4: the value `get_decimal` returns
after a decimal `set` of `x`. -/
def encDec4 (x : ℚ) : ℚ :=
  match convert_to_fixed_point x 4 with
  | Except.ok b => convert_from_fixed_point b 4
  | Except.error _ => 0

/-- Well-formedness of one (optional) region slot for a vector of tag `t`:
the variant matches the tag and the bitmap/data have their fixed sizes. -/
def WFregion (t : Nat) : Option VectorRegion → Prop
  | none => True
  | some (VectorRegion.Integer bm data) =>
    t = VEC_TYPE_INT ∧ bm.length = BITMAP_SIZE_BYTES ∧ data.length = REGION_SIZE
  | some (VectorRegion.Decimal bm data) =>
    t = VEC_TYPE_DECIMAL ∧ bm.length = BITMAP_SIZE_BYTES ∧ data.length = REGION_SIZE
  | some (VectorRegion.Double bm data) =>
    t = VEC_TYPE_DOUBLE ∧ bm.length = BITMAP_SIZE_BYTES ∧ data.length = REGION_SIZE

/-- Well-formedness of a typed vector state with tag `t`: the header is
typed with tag `t`, there are at most 64 region slots, and every slot is
well-formed for `t`. Every state reachable through the API once typed
satisfies this. -/
def WF (v : Vector) (t : Nat) : Prop :=
  has_type v.header = true ∧ get_vector_type v.header = t ∧
  (t = VEC_TYPE_INT ∨ t = VEC_TYPE_DECIMAL ∨ t = VEC_TYPE_DOUBLE) ∧
  v.regions.length ≤ VEC_NUM_REGIONS ∧
  ∀ n, WFregion t (v.regions.getD n none)

/-! ### List and bitmap lemmas -/

lemma getD_replicate_none {α : Type} (k n : Nat) :
    (List.replicate k (none : Option α)).getD n none = none := by
  rcases Nat.lt_or_ge n k with h | h
  · rw [List.getD_eq_getElem _ _ (by simpa using h)]
    simp
  · exact List.getD_eq_default _ _ (by simpa using h)

lemma growTo_getD (rs : List (Option VectorRegion)) (ri n : Nat) :
    (growTo rs ri).getD n none = rs.getD n none := by
  unfold growTo
  rcases Nat.lt_or_ge n rs.length with h | h
  · exact List.getD_append _ _ _ _ h
  · rw [List.getD_append_right _ _ _ _ h, List.getD_eq_default _ _ h,
      getD_replicate_none]

lemma growTo_length (rs : List (Option VectorRegion)) (ri : Nat) :
    (growTo rs ri).length = max rs.length (ri + 1) := by
  unfold growTo
  simp only [List.length_append, List.length_replicate]
  omega

lemma getD_set_self {α : Type} (l : List α) (n : Nat) (a d : α)
    (h : n < l.length) : (l.set n a).getD n d = a := by
  rw [List.getD_eq_getElem?_getD, List.getElem?_set_eq_of_lt a h]
  rfl

lemma getD_set_ne {α : Type} (l : List α) (m n : Nat) (a d : α)
    (h : m ≠ n) : (l.set m a).getD n d = l.getD n d := by
  rw [List.getD_eq_getElem?_getD, List.getElem?_set_ne h,
    ← List.getD_eq_getElem?_getD]

lemma bitTest_eq_testBit (bm : List Nat) (offset : Nat) :
    bitTest bm offset = (bm.getD (offset / 8) 0).testBit (offset % 8) := by
  unfold bitTest
  rw [Nat.shiftLeft_eq, one_mul, Nat.and_two_pow]
  cases h : (bm.getD (offset / 8) 0).testBit (offset % 8) <;>
    simp [h, (Nat.two_pow_pos (offset % 8)).ne']

lemma set_bitmap_bit_true (bm : List Nat) (offset : Nat) :
    set_bitmap_bit bm offset true =
      bm.set (offset / 8) (bm.getD (offset / 8) 0 ||| (1 <<< (offset % 8))) :=
  rfl

lemma bitTest_set_self (bm : List Nat) (offset : Nat)
    (h : offset / 8 < bm.length) :
    bitTest (set_bitmap_bit bm offset true) offset = true := by
  rw [set_bitmap_bit_true, bitTest_eq_testBit, getD_set_self _ _ _ _ h]
  simp [Nat.shiftLeft_eq, Nat.testBit_two_pow_self]

lemma bitTest_set_other (bm : List Nat) (offset other : Nat)
    (hne : other ≠ offset) :
    bitTest (set_bitmap_bit bm offset true) other = bitTest bm other := by
  rw [set_bitmap_bit_true]
  rcases eq_or_ne (offset / 8) (other / 8) with hb | hb
  · have hbit : offset % 8 ≠ other % 8 := by omega
    rw [bitTest_eq_testBit, bitTest_eq_testBit, ← hb]
    rcases Nat.lt_or_ge (offset / 8) bm.length with hl | hl
    · rw [getD_set_self _ _ _ _ hl]
      simp [Nat.shiftLeft_eq, Nat.testBit_two_pow_of_ne hbit]
    · rw [List.set_eq_of_length_le hl]
  · rw [bitTest_eq_testBit, bitTest_eq_testBit, getD_set_ne _ _ _ _ _ hb]

lemma bitTest_replicate_zero (offset : Nat) :
    bitTest (List.replicate 128 0) offset = false := by
  rw [bitTest_eq_testBit]
  rcases Nat.lt_or_ge (offset / 8) 128 with h | h
  · rw [List.getD_eq_getElem _ _ (by simpa using h), List.getElem_replicate]
    simp
  · rw [List.getD_eq_default _ _ (by simpa using h)]
    simp

/-! ### Execution analysis lemmas -/

lemma type_from_str_mem {ts : String} {t : Nat} (h : type_from_str ts = some t) :
    t = VEC_TYPE_INT ∨ t = VEC_TYPE_DECIMAL ∨ t = VEC_TYPE_DOUBLE := by
  unfold type_from_str at h
  split_ifs at h <;> simp_all

lemma get_vector_type_congr {h1 h2 : VectorHeader}
    (he : h1.type_field = h2.type_field) :
    get_vector_type h1 = get_vector_type h2 := by
  unfold get_vector_type; rw [he]

lemma has_type_congr {h1 h2 : VectorHeader}
    (he : h1.type_field = h2.type_field) : has_type h1 = has_type h2 := by
  unfold has_type; rw [he]

@[simp] lemma update_header_for_set_regions (v : Vector) (i : Nat) :
    (update_header_for_set v i).regions = v.regions := rfl

@[simp] lemma update_header_for_set_type_field (v : Vector) (i : Nat) :
    (update_header_for_set v i).header.type_field = v.header.type_field := rfl

@[simp] lemma update_header_for_set_count (v : Vector) (i : Nat) :
    (update_header_for_set v i).header.count = (v.header.count + 1) % 2 ^ 32 :=
  rfl

@[simp] lemma update_header_for_set_first (v : Vector) (i : Nat) :
    (update_header_for_set v i).header.first =
      min v.header.first (i % 2 ^ 16) := rfl

@[simp] lemma update_header_for_set_last (v : Vector) (i : Nat) :
    (update_header_for_set v i).header.last =
      max v.header.last (i % 2 ^ 16) := rfl

/-- The 9-byte encoding produced by `convert_to_fixed_point` at value `x`
and scale `s`, as an explicit list. -/
def fixedBytes (x : ℚ) (s : Nat) : List Nat :=
  (if rat_as_i64 (x * (10 : ℚ) ^ s) < 0 then 1 else 0) ::
    beBytes8 (rat_as_i64 (x * (10 : ℚ) ^ s)).natAbs

lemma convert_to_fixed_point_eq (x : ℚ) (s : Nat) :
    convert_to_fixed_point x s = Except.ok (fixedBytes x s) := rfl

lemma encodedSlot_int (x : ℚ) :
    encodedSlot VEC_TYPE_INT x = SlotVal.int (rat_as_i64 x) := rfl

lemma encodedSlot_dec (x : ℚ) :
    encodedSlot VEC_TYPE_DECIMAL x = SlotVal.dec (fixedBytes x 4) := rfl

lemma encodedSlot_dbl (x : ℚ) :
    encodedSlot VEC_TYPE_DOUBLE x = SlotVal.dbl x := rfl

lemma presentAt_congr {v w : Vector} (k : Nat)
    (h : w.regions.getD (k / 1024) none = v.regions.getD (k / 1024) none) :
    presentAt w k = presentAt v k := by
  unfold presentAt
  simp only [REGION_SIZE]
  rw [h]

lemma slotAt_congr {v w : Vector} (k : Nat)
    (h : w.regions.getD (k / 1024) none = v.regions.getD (k / 1024) none) :
    slotAt w k = slotAt v k := by
  unfold slotAt
  simp only [REGION_SIZE]
  rw [h]

lemma presentAt_int {v : Vector} {k : Nat} {bm : List Nat} {data : List Int}
    (h : v.regions.getD (k / 1024) none = some (VectorRegion.Integer bm data)) :
    presentAt v k = bitTest bm (k % 1024) := by
  unfold presentAt
  simp only [REGION_SIZE]
  rw [h]

lemma presentAt_dec {v : Vector} {k : Nat} {bm : List Nat}
    {data : List (List Nat)}
    (h : v.regions.getD (k / 1024) none = some (VectorRegion.Decimal bm data)) :
    presentAt v k = bitTest bm (k % 1024) := by
  unfold presentAt
  simp only [REGION_SIZE]
  rw [h]

lemma presentAt_dbl {v : Vector} {k : Nat} {bm : List Nat} {data : List ℚ}
    (h : v.regions.getD (k / 1024) none = some (VectorRegion.Double bm data)) :
    presentAt v k = bitTest bm (k % 1024) := by
  unfold presentAt
  simp only [REGION_SIZE]
  rw [h]

lemma presentAt_none {v : Vector} {k : Nat}
    (h : v.regions.getD (k / 1024) none = none) : presentAt v k = false := by
  unfold presentAt
  simp only [REGION_SIZE]
  rw [h]

lemma slotAt_int {v : Vector} {k : Nat} {bm : List Nat} {data : List Int}
    (h : v.regions.getD (k / 1024) none = some (VectorRegion.Integer bm data)) :
    slotAt v k = some (SlotVal.int (data.getD (k % 1024) 0)) := by
  unfold slotAt
  simp only [REGION_SIZE]
  rw [h]

lemma slotAt_dec {v : Vector} {k : Nat} {bm : List Nat} {data : List (List Nat)}
    (h : v.regions.getD (k / 1024) none = some (VectorRegion.Decimal bm data)) :
    slotAt v k = some (SlotVal.dec (data.getD (k % 1024) (List.replicate 9 0))) := by
  unfold slotAt
  simp only [REGION_SIZE]
  rw [h]

lemma slotAt_dbl {v : Vector} {k : Nat} {bm : List Nat} {data : List ℚ}
    (h : v.regions.getD (k / 1024) none = some (VectorRegion.Double bm data)) :
    slotAt v k = some (SlotVal.dbl (data.getD (k % 1024) 0)) := by
  unfold slotAt
  simp only [REGION_SIZE]
  rw [h]

lemma ensure_region_spec (v : Vector) (ri t : Nat)
    (ht : get_vector_type v.header = t)
    (hmem : t = VEC_TYPE_INT ∨ t = VEC_TYPE_DECIMAL ∨ t = VEC_TYPE_DOUBLE) :
    (v.ensure_region ri = none ∧ (v.regions.getD ri none).isSome = false ∧
      VEC_NUM_REGIONS ≤ ri) ∨
    ∃ v1, v.ensure_region ri = some (Except.ok (), v1) ∧
      v1.header.type_field = v.header.type_field ∧
      v1.header.count = v.header.count ∧
      v1.header.first = v.header.first ∧
      v1.header.last = v.header.last ∧
      v1.regions.length = max v.regions.length (ri + 1) ∧
      (∀ n, n ≠ ri → v1.regions.getD n none = v.regions.getD n none) ∧
      ((v.regions.getD ri none).isSome = true →
        v1.regions.getD ri none = v.regions.getD ri none) ∧
      ((v.regions.getD ri none).isSome = false → ri < VEC_NUM_REGIONS ∧
        v1.regions.getD ri none = mkRegion t) := by
  simp only [Vector.ensure_region]
  by_cases hs : ((growTo v.regions ri).getD ri none).isSome
  · rw [if_pos hs]
    rw [growTo_getD] at hs
    right
    refine ⟨_, rfl, rfl, rfl, rfl, rfl, growTo_length _ _,
      fun n _ => growTo_getD _ _ _, fun _ => growTo_getD _ _ _, fun hf => ?_⟩
    rw [hs] at hf; cases hf
  · rw [if_neg hs]
    rw [growTo_getD] at hs
    have hs' : (v.regions.getD ri none).isSome = false := by
      simpa using hs
    have htv : get_vector_type ({ v with regions := growTo v.regions ri } :
        Vector).header = t := ht
    rw [htv]
    have hmk : ∃ r, mkRegion t = some r := by
      rcases hmem with h | h | h <;> subst h <;> exact ⟨_, rfl⟩
    obtain ⟨r, hr⟩ := hmk
    rw [hr]
    dsimp only
    by_cases hlt : ri < VEC_NUM_REGIONS
    · rw [if_pos hlt]
      right
      have hlen : ri < (growTo v.regions ri).length := by
        rw [growTo_length]; omega
      refine ⟨_, rfl, rfl, rfl, rfl, rfl, ?_, ?_, ?_, ?_⟩
      · simp only [List.length_set]; exact growTo_length _ _
      · intro n hn
        simp only []
        rw [getD_set_ne _ _ _ _ _ (Ne.symm hn), growTo_getD]
      · intro hsome; rw [hsome] at hs'; cases hs'
      · intro _
        refine ⟨hlt, ?_⟩
        simp only []
        rw [getD_set_self _ _ _ _ hlen]
    · rw [if_neg hlt]
      left
      exact ⟨rfl, hs', by omega⟩

/-- Glue lemma for the write-back step shared by the three region kinds of
`set_value`: given the `ensure_region` postconditions for `v1` and
kind-specific facts about the written region `A`, the final state
`update_header_for_set { v1 with regions := set .. } i` satisfies all the
postconditions of a successful `set_value`. -/
lemma writeback_spec (v v1 : Vector) (t i : Nat) (A : VectorRegion)
    (sv : SlotVal)
    (hht : has_type v.header = true) (ht : get_vector_type v.header = t)
    (hlen : v.regions.length ≤ 64)
    (hreg : ∀ n, WFregion t (v.regions.getD n none))
    (hi : i < 65536)
    (htf : v1.header.type_field = v.header.type_field)
    (hc : v1.header.count = v.header.count)
    (hf : v1.header.first = v.header.first)
    (hl : v1.header.last = v.header.last)
    (hlen1 : v1.regions.length = max v.regions.length (i / 1024 + 1))
    (hother : ∀ n, n ≠ i / 1024 →
      v1.regions.getD n none = v.regions.getD n none)
    (hWFA : WFregion t (some A))
    (hpresA : ∀ w : Vector, w.regions.getD (i / 1024) none = some A →
      presentAt w i = true ∧ slotAt w i = some sv)
    (hframeA : ∀ (w : Vector) k, w.regions.getD (k / 1024) none = some A →
      k / 1024 = i / 1024 → k ≠ i →
      presentAt w k = presentAt v k ∧
      ((v.regions.getD (i / 1024) none).isSome = true →
        slotAt w k = slotAt v k)) :
    WF (update_header_for_set
      { v1 with regions := v1.regions.set (i / 1024) (some A) } i) t ∧
    (update_header_for_set
      { v1 with regions := v1.regions.set (i / 1024) (some A) } i).header.type_field
        = v.header.type_field ∧
    (update_header_for_set
      { v1 with regions := v1.regions.set (i / 1024) (some A) } i).header.count
        = (v.header.count + 1) % 2 ^ 32 ∧
    (update_header_for_set
      { v1 with regions := v1.regions.set (i / 1024) (some A) } i).header.first
        = min v.header.first (i % 2 ^ 16) ∧
    (update_header_for_set
      { v1 with regions := v1.regions.set (i / 1024) (some A) } i).header.last
        = max v.header.last (i % 2 ^ 16) ∧
    presentAt (update_header_for_set
      { v1 with regions := v1.regions.set (i / 1024) (some A) } i) i = true ∧
    slotAt (update_header_for_set
      { v1 with regions := v1.regions.set (i / 1024) (some A) } i) i = some sv ∧
    (update_header_for_set
      { v1 with regions := v1.regions.set (i / 1024) (some A) } i).regions.length
        = max v.regions.length (i / 1024 + 1) ∧
    (∀ n, (v.regions.getD n none).isSome = true →
      ((update_header_for_set
        { v1 with regions := v1.regions.set (i / 1024) (some A) } i).regions.getD
          n none).isSome = true) ∧
    ∀ k, k ≠ i →
      presentAt (update_header_for_set
        { v1 with regions := v1.regions.set (i / 1024) (some A) } i) k
          = presentAt v k ∧
      ((v.regions.getD (k / 1024) none).isSome = true →
        slotAt (update_header_for_set
          { v1 with regions := v1.regions.set (i / 1024) (some A) } i) k
            = slotAt v k) := by
  have hri : i / 1024 < 64 := by omega
  have hri1 : i / 1024 < v1.regions.length := by
    rw [hlen1]
    exact Nat.lt_of_lt_of_le (Nat.lt_succ_self _) (Nat.le_max_right _ _)
  have hgetS : (v1.regions.set (i / 1024) (some A)).getD (i / 1024) none
      = some A := getD_set_self _ _ _ _ hri1
  have hW_at : (update_header_for_set
      { v1 with regions := v1.regions.set (i / 1024) (some A) } i).regions.getD
        (i / 1024) none = some A := hgetS
  refine ⟨?_, htf, ?_, ?_, ?_, (hpresA _ hW_at).1, (hpresA _ hW_at).2, ?_, ?_, ?_⟩
  · refine ⟨?_, ?_, ?_, ?_, ?_⟩
    · show has_type v1.header = true
      rw [has_type_congr htf]; exact hht
    · show get_vector_type v1.header = t
      rw [get_vector_type_congr htf]; exact ht
    · cases A with
      | Integer bm data => exact Or.inl hWFA.1
      | Decimal bm data => exact Or.inr (Or.inl hWFA.1)
      | Double bm data => exact Or.inr (Or.inr hWFA.1)
    · show (v1.regions.set (i / 1024) (some A)).length ≤ VEC_NUM_REGIONS
      rw [List.length_set, hlen1]
      simp only [VEC_NUM_REGIONS]
      exact Nat.max_le.mpr ⟨hlen, by omega⟩
    · intro n
      show WFregion t ((v1.regions.set (i / 1024) (some A)).getD n none)
      by_cases hn : n = i / 1024
      · subst hn; rw [hgetS]; exact hWFA
      · rw [getD_set_ne _ _ _ _ _ (Ne.symm hn), hother n hn]
        exact hreg n
  · show (v1.header.count + 1) % 2 ^ 32 = (v.header.count + 1) % 2 ^ 32
    rw [hc]
  · show min v1.header.first (i % 2 ^ 16) = min v.header.first (i % 2 ^ 16)
    rw [hf]
  · show max v1.header.last (i % 2 ^ 16) = max v.header.last (i % 2 ^ 16)
    rw [hl]
  · show (v1.regions.set (i / 1024) (some A)).length
      = max v.regions.length (i / 1024 + 1)
    rw [List.length_set, hlen1]
  · intro n hn
    show ((v1.regions.set (i / 1024) (some A)).getD n none).isSome = true
    by_cases h : n = i / 1024
    · subst h; rw [hgetS]; rfl
    · rw [getD_set_ne _ _ _ _ _ (Ne.symm h), hother n h]; exact hn
  · intro k hk
    by_cases hrk : k / 1024 = i / 1024
    · have hW_at' : (update_header_for_set
          { v1 with regions := v1.regions.set (i / 1024) (some A) } i).regions.getD
            (k / 1024) none = some A := by rw [hrk]; exact hW_at
      obtain ⟨hpr, hsl⟩ := hframeA _ k hW_at' hrk hk
      exact ⟨hpr, fun hs => hsl (by rw [← hrk]; exact hs)⟩
    · have hframe : (update_header_for_set
          { v1 with regions := v1.regions.set (i / 1024) (some A) } i).regions.getD
            (k / 1024) none = v.regions.getD (k / 1024) none := by
        show ((v1.regions.set (i / 1024) (some A)).getD (k / 1024) none)
          = v.regions.getD (k / 1024) none
        rw [getD_set_ne _ _ _ _ _ (Ne.symm hrk), hother _ hrk]
      exact ⟨presentAt_congr k hframe, fun _ => slotAt_congr k hframe⟩

/-- Full characterization of a successful `set_value` on a well-formed typed
vector at an in-range index: it returns `Ok`, writes the encoded value and
presence bit at `index`, updates the header bookkeeping, and disturbs no
other index. -/
lemma set_value_spec (v : Vector) (t i : Nat) (x : ℚ) (hwf : WF v t)
    (hi : i < 65536) :
    ∃ v', v.set_value i x = some (Except.ok (), v') ∧
      WF v' t ∧
      v'.header.type_field = v.header.type_field ∧
      v'.header.count = (v.header.count + 1) % 2 ^ 32 ∧
      v'.header.first = min v.header.first (i % 2 ^ 16) ∧
      v'.header.last = max v.header.last (i % 2 ^ 16) ∧
      presentAt v' i = true ∧
      slotAt v' i = some (encodedSlot t x) ∧
      v'.regions.length = max v.regions.length (i / 1024 + 1) ∧
      (∀ n, (v.regions.getD n none).isSome = true →
        (v'.regions.getD n none).isSome = true) ∧
      ∀ k, k ≠ i →
        presentAt v' k = presentAt v k ∧
        ((v.regions.getD (k / 1024) none).isSome = true →
          slotAt v' k = slotAt v k) := by
  obtain ⟨hht, ht, hmem, hlen, hreg⟩ := hwf
  simp only [VEC_NUM_REGIONS] at hlen
  have hri : i / 1024 < 64 := by omega
  have hoff : i % 1024 < 1024 := Nat.mod_lt _ (by norm_num)
  rcases ensure_region_spec v (i / 1024) t ht hmem with
    ⟨_, _, hge⟩ | ⟨v1, hE, htf, hc, hf, hl, hlen1, hother, hpres, habs⟩
  · simp only [VEC_NUM_REGIONS] at hge; omega
  have t1 : get_vector_type v1.header = t := by
    rw [get_vector_type_congr htf, ht]
  simp only [Vector.set_value, Vector.get_region_info, REGION_SIZE]
  rw [hE]
  dsimp only
  rcases hmem with hT | hT | hT <;> subst hT
  · -- integer vector
    rw [if_pos t1]
    have hX : ∃ bm data, v1.regions.getD (i / 1024) none =
        some (VectorRegion.Integer bm data) ∧ bm.length = 128 ∧
        data.length = 1024 ∧
        (∀ o, o < 1024 → bitTest bm o = presentAt v (1024 * (i / 1024) + o)) ∧
        (∀ o, o < 1024 → (v.regions.getD (i / 1024) none).isSome = true →
          some (SlotVal.int (data.getD o 0)) =
            slotAt v (1024 * (i / 1024) + o)) := by
      by_cases hsm : (v.regions.getD (i / 1024) none).isSome = true
      · have hp := hpres hsm
        have hwfr := hreg (i / 1024)
        rcases hO : v.regions.getD (i / 1024) none with _ | reg
        · rw [hO] at hsm; cases hsm
        rw [hO] at hwfr
        cases reg with
        | Integer bm data =>
          simp only [WFregion, BITMAP_SIZE_BYTES, REGION_SIZE] at hwfr
          refine ⟨bm, data, by rw [hp, hO], hwfr.2.1, hwfr.2.2, ?_, ?_⟩
          · intro o ho
            have hdiv : (1024 * (i / 1024) + o) / 1024 = i / 1024 := by omega
            have hmod : (1024 * (i / 1024) + o) % 1024 = o := by omega
            rw [presentAt_int (by rw [hdiv, hO]), hmod]
          · intro o ho _
            have hdiv : (1024 * (i / 1024) + o) / 1024 = i / 1024 := by omega
            have hmod : (1024 * (i / 1024) + o) % 1024 = o := by omega
            rw [slotAt_int (by rw [hdiv, hO]), hmod]
        | Decimal bm data =>
          simp only [WFregion, VEC_TYPE_INT, VEC_TYPE_DECIMAL] at hwfr
          exact absurd hwfr.1 (by decide)
        | Double bm data =>
          simp only [WFregion, VEC_TYPE_INT, VEC_TYPE_DOUBLE] at hwfr
          exact absurd hwfr.1 (by decide)
      · have hsm' : (v.regions.getD (i / 1024) none).isSome = false := by
          simpa using hsm
        have hO : v.regions.getD (i / 1024) none = none := by
          cases hOc : v.regions.getD (i / 1024) none with
          | none => rfl
          | some r => rw [hOc] at hsm'; simp at hsm'
        obtain ⟨-, hfr⟩ := habs hsm'
        refine ⟨List.replicate 128 0, List.replicate 1024 0,
          by rw [hfr]; rfl, List.length_replicate _ _, List.length_replicate _ _,
          ?_, ?_⟩
        · intro o ho
          have hdiv : (1024 * (i / 1024) + o) / 1024 = i / 1024 := by omega
          rw [bitTest_replicate_zero, presentAt_none (by rw [hdiv, hO])]
        · intro o ho hc'
          rw [hsm'] at hc'; cases hc'
    obtain ⟨bm, data, hAt, hbml, hdl, hP, hQ⟩ := hX
    rw [hAt]
    dsimp only
    refine ⟨_, rfl, ?_⟩
    refine writeback_spec v v1 VEC_TYPE_INT i
      (VectorRegion.Integer (set_bitmap_bit bm (i % 1024) true)
        (data.set (i % 1024) (rat_as_i64 x)))
      (encodedSlot VEC_TYPE_INT x)
      hht ht hlen hreg hi htf hc hf hl hlen1 hother ?_ ?_ ?_
    · simp only [WFregion, set_bitmap_bit_true, List.length_set]
      exact ⟨trivial, hbml, hdl⟩
    · intro w hw
      constructor
      · rw [presentAt_int hw]
        exact bitTest_set_self bm (i % 1024) (by omega)
      · rw [slotAt_int hw, getD_set_self _ _ _ _ (by omega), encodedSlot_int]
    · intro w k hw hrk hk
      have hko : k % 1024 ≠ i % 1024 := by omega
      constructor
      · have hp' := hP (k % 1024) (by omega)
        rw [show 1024 * (i / 1024) + k % 1024 = k by omega] at hp'
        rw [presentAt_int hw, bitTest_set_other _ _ _ hko]
        exact hp'
      · intro hsm
        have hq' := hQ (k % 1024) (by omega) hsm
        rw [show 1024 * (i / 1024) + k % 1024 = k by omega] at hq'
        rw [slotAt_int hw, getD_set_ne _ _ _ _ _ (Ne.symm hko)]
        exact hq'
  · -- decimal vector
    rw [if_neg (by rw [t1]; decide), if_pos t1]
    have hX : ∃ bm data, v1.regions.getD (i / 1024) none =
        some (VectorRegion.Decimal bm data) ∧ bm.length = 128 ∧
        data.length = 1024 ∧
        (∀ o, o < 1024 → bitTest bm o = presentAt v (1024 * (i / 1024) + o)) ∧
        (∀ o, o < 1024 → (v.regions.getD (i / 1024) none).isSome = true →
          some (SlotVal.dec (data.getD o (List.replicate 9 0))) =
            slotAt v (1024 * (i / 1024) + o)) := by
      by_cases hsm : (v.regions.getD (i / 1024) none).isSome = true
      · have hp := hpres hsm
        have hwfr := hreg (i / 1024)
        rcases hO : v.regions.getD (i / 1024) none with _ | reg
        · rw [hO] at hsm; cases hsm
        rw [hO] at hwfr
        cases reg with
        | Integer bm data =>
          simp only [WFregion, VEC_TYPE_INT, VEC_TYPE_DECIMAL] at hwfr
          exact absurd hwfr.1 (by decide)
        | Decimal bm data =>
          simp only [WFregion, BITMAP_SIZE_BYTES, REGION_SIZE] at hwfr
          refine ⟨bm, data, by rw [hp, hO], hwfr.2.1, hwfr.2.2, ?_, ?_⟩
          · intro o ho
            have hdiv : (1024 * (i / 1024) + o) / 1024 = i / 1024 := by omega
            have hmod : (1024 * (i / 1024) + o) % 1024 = o := by omega
            rw [presentAt_dec (by rw [hdiv, hO]), hmod]
          · intro o ho _
            have hdiv : (1024 * (i / 1024) + o) / 1024 = i / 1024 := by omega
            have hmod : (1024 * (i / 1024) + o) % 1024 = o := by omega
            rw [slotAt_dec (by rw [hdiv, hO]), hmod]
        | Double bm data =>
          simp only [WFregion, VEC_TYPE_DECIMAL, VEC_TYPE_DOUBLE] at hwfr
          exact absurd hwfr.1 (by decide)
      · have hsm' : (v.regions.getD (i / 1024) none).isSome = false := by
          simpa using hsm
        have hO : v.regions.getD (i / 1024) none = none := by
          cases hOc : v.regions.getD (i / 1024) none with
          | none => rfl
          | some r => rw [hOc] at hsm'; simp at hsm'
        obtain ⟨-, hfr⟩ := habs hsm'
        refine ⟨List.replicate 128 0, List.replicate 1024 (List.replicate 9 0),
          by rw [hfr]; rfl, List.length_replicate _ _, List.length_replicate _ _,
          ?_, ?_⟩
        · intro o ho
          have hdiv : (1024 * (i / 1024) + o) / 1024 = i / 1024 := by omega
          rw [bitTest_replicate_zero, presentAt_none (by rw [hdiv, hO])]
        · intro o ho hc'
          rw [hsm'] at hc'; cases hc'
    obtain ⟨bm, data, hAt, hbml, hdl, hP, hQ⟩ := hX
    rw [hAt]
    dsimp only
    rw [convert_to_fixed_point_eq]
    dsimp only
    refine ⟨_, rfl, ?_⟩
    refine writeback_spec v v1 VEC_TYPE_DECIMAL i
      (VectorRegion.Decimal (set_bitmap_bit bm (i % 1024) true)
        (data.set (i % 1024) (fixedBytes x 4)))
      (encodedSlot VEC_TYPE_DECIMAL x)
      hht ht hlen hreg hi htf hc hf hl hlen1 hother ?_ ?_ ?_
    · simp only [WFregion, set_bitmap_bit_true, List.length_set]
      exact ⟨trivial, hbml, hdl⟩
    · intro w hw
      constructor
      · rw [presentAt_dec hw]
        exact bitTest_set_self bm (i % 1024) (by omega)
      · rw [slotAt_dec hw, getD_set_self _ _ _ _ (by omega), encodedSlot_dec]
    · intro w k hw hrk hk
      have hko : k % 1024 ≠ i % 1024 := by omega
      constructor
      · have hp' := hP (k % 1024) (by omega)
        rw [show 1024 * (i / 1024) + k % 1024 = k by omega] at hp'
        rw [presentAt_dec hw, bitTest_set_other _ _ _ hko]
        exact hp'
      · intro hsm
        have hq' := hQ (k % 1024) (by omega) hsm
        rw [show 1024 * (i / 1024) + k % 1024 = k by omega] at hq'
        rw [slotAt_dec hw, getD_set_ne _ _ _ _ _ (Ne.symm hko)]
        exact hq'
  · -- double vector
    rw [if_neg (by rw [t1]; decide), if_neg (by rw [t1]; decide), if_pos t1]
    have hX : ∃ bm data, v1.regions.getD (i / 1024) none =
        some (VectorRegion.Double bm data) ∧ bm.length = 128 ∧
        data.length = 1024 ∧
        (∀ o, o < 1024 → bitTest bm o = presentAt v (1024 * (i / 1024) + o)) ∧
        (∀ o, o < 1024 → (v.regions.getD (i / 1024) none).isSome = true →
          some (SlotVal.dbl (data.getD o 0)) =
            slotAt v (1024 * (i / 1024) + o)) := by
      by_cases hsm : (v.regions.getD (i / 1024) none).isSome = true
      · have hp := hpres hsm
        have hwfr := hreg (i / 1024)
        rcases hO : v.regions.getD (i / 1024) none with _ | reg
        · rw [hO] at hsm; cases hsm
        rw [hO] at hwfr
        cases reg with
        | Integer bm data =>
          simp only [WFregion, VEC_TYPE_INT, VEC_TYPE_DOUBLE] at hwfr
          exact absurd hwfr.1 (by decide)
        | Decimal bm data =>
          simp only [WFregion, VEC_TYPE_DECIMAL, VEC_TYPE_DOUBLE] at hwfr
          exact absurd hwfr.1 (by decide)
        | Double bm data =>
          simp only [WFregion, BITMAP_SIZE_BYTES, REGION_SIZE] at hwfr
          refine ⟨bm, data, by rw [hp, hO], hwfr.2.1, hwfr.2.2, ?_, ?_⟩
          · intro o ho
            have hdiv : (1024 * (i / 1024) + o) / 1024 = i / 1024 := by omega
            have hmod : (1024 * (i / 1024) + o) % 1024 = o := by omega
            rw [presentAt_dbl (by rw [hdiv, hO]), hmod]
          · intro o ho _
            have hdiv : (1024 * (i / 1024) + o) / 1024 = i / 1024 := by omega
            have hmod : (1024 * (i / 1024) + o) % 1024 = o := by omega
            rw [slotAt_dbl (by rw [hdiv, hO]), hmod]
      · have hsm' : (v.regions.getD (i / 1024) none).isSome = false := by
          simpa using hsm
        have hO : v.regions.getD (i / 1024) none = none := by
          cases hOc : v.regions.getD (i / 1024) none with
          | none => rfl
          | some r => rw [hOc] at hsm'; simp at hsm'
        obtain ⟨-, hfr⟩ := habs hsm'
        refine ⟨List.replicate 128 0, List.replicate 1024 0,
          by rw [hfr]; rfl, List.length_replicate _ _, List.length_replicate _ _,
          ?_, ?_⟩
        · intro o ho
          have hdiv : (1024 * (i / 1024) + o) / 1024 = i / 1024 := by omega
          rw [bitTest_replicate_zero, presentAt_none (by rw [hdiv, hO])]
        · intro o ho hc'
          rw [hsm'] at hc'; cases hc'
    obtain ⟨bm, data, hAt, hbml, hdl, hP, hQ⟩ := hX
    rw [hAt]
    dsimp only
    refine ⟨_, rfl, ?_⟩
    refine writeback_spec v v1 VEC_TYPE_DOUBLE i
      (VectorRegion.Double (set_bitmap_bit bm (i % 1024) true)
        (data.set (i % 1024) x))
      (encodedSlot VEC_TYPE_DOUBLE x)
      hht ht hlen hreg hi htf hc hf hl hlen1 hother ?_ ?_ ?_
    · simp only [WFregion, set_bitmap_bit_true, List.length_set]
      exact ⟨trivial, hbml, hdl⟩
    · intro w hw
      constructor
      · rw [presentAt_dbl hw]
        exact bitTest_set_self bm (i % 1024) (by omega)
      · rw [slotAt_dbl hw, getD_set_self _ _ _ _ (by omega), encodedSlot_dbl]
    · intro w k hw hrk hk
      have hko : k % 1024 ≠ i % 1024 := by omega
      constructor
      · have hp' := hP (k % 1024) (by omega)
        rw [show 1024 * (i / 1024) + k % 1024 = k by omega] at hp'
        rw [presentAt_dbl hw, bitTest_set_other _ _ _ hko]
        exact hp'
      · intro hsm
        have hq' := hQ (k % 1024) (by omega) hsm
        rw [show 1024 * (i / 1024) + k % 1024 = k by omega] at hq'
        rw [slotAt_dbl hw, getD_set_ne _ _ _ _ _ (Ne.symm hko)]
        exact hq'

/-! ### `set`-level lemmas -/

lemma bitTest_true_iff (bm : List Nat) (off : Nat) :
    bitTest bm off = true ↔
      bm.getD (off / 8) 0 &&& (1 <<< (off % 8)) ≠ 0 := by
  unfold bitTest
  simp [bne]

lemma presentAt_isSome {v : Vector} {k : Nat} (h : presentAt v k = true) :
    (v.regions.getD (k / 1024) none).isSome = true := by
  rcases hG : v.regions.getD (k / 1024) none with _ | reg
  · rw [presentAt_none hG] at h; cases h
  · rfl

lemma set_value_none_of_ensure_none {v : Vector} {i : Nat} (x : ℚ)
    (h : v.ensure_region (i / 1024) = none) : v.set_value i x = none := by
  simp only [Vector.set_value, Vector.get_region_info, REGION_SIZE]
  rw [h]

lemma set_value_no_error (v : Vector) (t i : Nat) (x : ℚ) (e : String)
    (ht : get_vector_type v.header = t)
    (hmem : t = VEC_TYPE_INT ∨ t = VEC_TYPE_DECIMAL ∨ t = VEC_TYPE_DOUBLE) :
    ∀ vE, v.set_value i x ≠ some (Except.error e, vE) := by
  intro vE h
  rcases ensure_region_spec v (i / 1024) t ht hmem with
    ⟨hnone, _, _⟩ | ⟨v1, hE, htf, _, _, _, _, _, _, _⟩
  · rw [set_value_none_of_ensure_none x hnone] at h
    cases h
  have t1 : get_vector_type v1.header = t := by
    rw [get_vector_type_congr htf, ht]
  simp only [Vector.set_value, Vector.get_region_info, REGION_SIZE] at h
  rw [hE] at h
  dsimp only at h
  rcases hmem with hT | hT | hT <;> subst hT
  · rw [if_pos t1] at h
    simp at h
  · rw [if_neg (by rw [t1]; decide), if_pos t1] at h
    rcases hG : v1.regions.getD (i / 1024) none with _ | reg
    · rw [hG] at h; simp at h
    · rw [hG] at h
      cases reg with
      | Integer bm data => simp at h
      | Decimal bm data =>
        rw [convert_to_fixed_point_eq] at h
        simp at h
      | Double bm data => simp at h
  · rw [if_neg (by rw [t1]; decide), if_neg (by rw [t1]; decide),
      if_pos t1] at h
    simp at h

/-- Any `set` call that returns an `Err` leaves the vector unchanged. -/
lemma set_error_eq {v : Vector} {i : Nat} {ts : String} {x : ℚ} {e : String}
    {v' : Vector} (h : v.set i ts x = some (Except.error e, v')) : v' = v := by
  unfold Vector.set at h
  cases hp : type_from_str ts with
  | none =>
    rw [hp] at h
    simp only [Option.some.injEq, Prod.mk.injEq] at h
    exact h.2.symm
  | some t =>
    rw [hp] at h
    dsimp only at h
    have hmem := type_from_str_mem hp
    by_cases hht : has_type v.header = true
    · rw [if_neg (by rw [hht]; decide)] at h
      by_cases hit : is_type v.header t = true
      · rw [if_neg (by rw [hit]; decide)] at h
        have htag : get_vector_type v.header = t := by
          have h2 := hit
          unfold is_type at h2
          simpa using h2
        exact absurd h (set_value_no_error v t i x e htag hmem v')
      · have hif : is_type v.header t = false := by simpa using hit
        rw [if_pos (show (!is_type v.header t) = true by rw [hif]; rfl)] at h
        simp only [Option.some.injEq, Prod.mk.injEq] at h
        exact h.2.symm
    · have hhf : has_type v.header = false := by simpa using hht
      rw [if_pos (show (!has_type v.header) = true by rw [hhf]; rfl)] at h
      have htag : get_vector_type
          { v with header := set_vector_type v.header t }.header = t := by
        show get_vector_type (set_vector_type v.header t) = t
        rcases hmem with hT | hT | hT <;> subst hT
        · exact (by decide : (VECTOR_MAGIC ||| VEC_TYPE_INT) &&& 0xFF
            = VEC_TYPE_INT)
        · exact (by decide : (VECTOR_MAGIC ||| VEC_TYPE_DECIMAL) &&& 0xFF
            = VEC_TYPE_DECIMAL)
        · exact (by decide : (VECTOR_MAGIC ||| VEC_TYPE_DOUBLE) &&& 0xFF
            = VEC_TYPE_DOUBLE)
      exact absurd h (set_value_no_error _ t i x e htag hmem v')

lemma isSome_getD_lt {l : List (Option VectorRegion)} {n : Nat}
    (h : (l.getD n none).isSome = true) : n < l.length := by
  by_contra hn
  rw [List.getD_eq_default _ _ (Nat.le_of_not_lt hn)] at h
  cases h

/-- Header and length facts of `ensure_region`, for any state and outcome. -/
lemma ensure_region_facts {v : Vector} {ri : Nat} {r : Except String Unit}
    {v1 : Vector} (h : v.ensure_region ri = some (r, v1)) :
    v1.header.type_field = v.header.type_field ∧
    v1.header.count = v.header.count ∧
    v1.header.first = v.header.first ∧
    v1.header.last = v.header.last ∧
    v1.regions.length = max v.regions.length (ri + 1) ∧
    (∀ u, r = Except.ok u → ri < 64 ∨ ri < v.regions.length) := by
  simp only [Vector.ensure_region] at h
  split at h
  case isTrue hs =>
    simp only [Option.some.injEq, Prod.mk.injEq] at h
    rw [← h.2]
    refine ⟨rfl, rfl, rfl, rfl, growTo_length _ _, fun u _ => Or.inr ?_⟩
    rw [growTo_getD] at hs
    exact isSome_getD_lt hs
  case isFalse hs =>
    split at h
    · simp only [Option.some.injEq, Prod.mk.injEq] at h
      rw [← h.2]
      refine ⟨rfl, rfl, rfl, rfl, growTo_length _ _, fun u hu => ?_⟩
      rw [← h.1] at hu
      cases hu
    · split at h
      case isTrue hlt =>
        simp only [Option.some.injEq, Prod.mk.injEq] at h
        rw [← h.2]
        refine ⟨rfl, rfl, rfl, rfl, ?_, fun u _ => Or.inl ?_⟩
        · simp only [List.length_set]
          exact growTo_length _ _
        · simpa [VEC_NUM_REGIONS] using hlt
      case isFalse => cases h

/-- Header and length facts of `set_value`, for any state and outcome. -/
lemma set_value_header_facts {v : Vector} {i : Nat} {x : ℚ}
    {r : Except String Unit} {v' : Vector}
    (h : v.set_value i x = some (r, v')) :
    v'.header.type_field = v.header.type_field ∧
    ∀ u, r = Except.ok u →
      v'.header.count = (v.header.count + 1) % 2 ^ 32 ∧
      v'.header.first = min v.header.first (i % 2 ^ 16) ∧
      v'.header.last = max v.header.last (i % 2 ^ 16) ∧
      v'.regions.length = max v.regions.length (i / 1024 + 1) ∧
      (i / 1024 < 64 ∨ i / 1024 < v.regions.length) := by
  simp only [Vector.set_value, Vector.get_region_info, REGION_SIZE] at h
  cases hE : v.ensure_region (i / 1024) with
  | none => rw [hE] at h; cases h
  | some p =>
    obtain ⟨re, v1⟩ := p
    obtain ⟨htf, hc, hf, hl, hlen1, hbound⟩ := ensure_region_facts hE
    rw [hE] at h
    cases re with
    | error e =>
      dsimp only at h
      simp only [Option.some.injEq, Prod.mk.injEq] at h
      rw [← h.2]
      exact ⟨htf, fun u hu => by rw [← h.1] at hu; cases hu⟩
    | ok u0 =>
      dsimp only at h
      have hgoal : ∀ W : Vector, W.header = v1.header →
          W.regions.length = v1.regions.length →
          (update_header_for_set W i).header.type_field = v.header.type_field ∧
          ∀ u, (Except.ok u0 : Except String Unit) = Except.ok u →
            (update_header_for_set W i).header.count
              = (v.header.count + 1) % 2 ^ 32 ∧
            (update_header_for_set W i).header.first
              = min v.header.first (i % 2 ^ 16) ∧
            (update_header_for_set W i).header.last
              = max v.header.last (i % 2 ^ 16) ∧
            (update_header_for_set W i).regions.length
              = max v.regions.length (i / 1024 + 1) ∧
            (i / 1024 < 64 ∨ i / 1024 < v.regions.length) := by
        intro W hW hWl
        refine ⟨?_, fun u _ => ⟨?_, ?_, ?_, ?_, hbound u0 rfl⟩⟩ <;>
          simp only [update_header_for_set_type_field,
            update_header_for_set_count, update_header_for_set_first,
            update_header_for_set_last, update_header_for_set_regions,
            hW, hWl, hlen1, htf, hc, hf, hl]
      rcases hG : v1.regions.getD (i / 1024) none with _ | reg
      all_goals try cases reg
      all_goals rw [hG] at h
      all_goals split at h <;> [skip; split at h] <;> [skip; skip; split at h]
      all_goals try rw [convert_to_fixed_point_eq] at h
      all_goals try dsimp only at h
      all_goals simp only [Option.some.injEq, Prod.mk.injEq] at h
      all_goals first
        | (obtain ⟨hr, hv⟩ := h; subst hv; rw [← hr];
           exact hgoal _ rfl (by simp only [List.length_set]))
        | (obtain ⟨hr, hv⟩ := h; subst hv; rw [← hr]; exact hgoal _ rfl rfl)
        | (obtain ⟨hr, hv⟩ := h; subst hv;
           exact ⟨htf, fun u hu => by rw [← hr] at hu; cases hu⟩)

/-- A successful `set` on a well-formed typed vector whose type name parses
to the locked tag behaves exactly as `set_value`. -/
lemma set_typed_spec (v : Vector) (t i : Nat) (ts : String) (x : ℚ)
    (hwf : WF v t) (hparse : type_from_str ts = some t) (hi : i < 65536) :
    ∃ v', v.set i ts x = some (Except.ok (), v') ∧
      WF v' t ∧
      v'.header.type_field = v.header.type_field ∧
      v'.header.count = (v.header.count + 1) % 2 ^ 32 ∧
      v'.header.first = min v.header.first (i % 2 ^ 16) ∧
      v'.header.last = max v.header.last (i % 2 ^ 16) ∧
      presentAt v' i = true ∧
      slotAt v' i = some (encodedSlot t x) ∧
      v'.regions.length = max v.regions.length (i / 1024 + 1) ∧
      (∀ n, (v.regions.getD n none).isSome = true →
        (v'.regions.getD n none).isSome = true) ∧
      ∀ k, k ≠ i →
        presentAt v' k = presentAt v k ∧
        ((v.regions.getD (k / 1024) none).isSome = true →
          slotAt v' k = slotAt v k) := by
  have hit : is_type v.header t = true := by
    unfold is_type
    simp [hwf.2.1]
  simp only [Vector.set]
  rw [hparse]
  dsimp only
  rw [if_neg (by rw [hwf.1]; decide), if_neg (by rw [hit]; decide)]
  exact set_value_spec v t i x hwf hi

/-- A `set` on an untyped vector with well-formed regions locks the type and
then behaves as `set_value`. -/
lemma set_untyped_spec (v : Vector) (t i : Nat) (ts : String) (x : ℚ)
    (hht : has_type v.header = false) (hparse : type_from_str ts = some t)
    (hi : i < 65536) (hlen : v.regions.length ≤ 64)
    (hreg : ∀ n, WFregion t (v.regions.getD n none)) :
    ∃ v', v.set i ts x = some (Except.ok (), v') ∧
      WF v' t ∧
      v'.header.type_field = VECTOR_MAGIC ||| t ∧
      v'.header.count = (v.header.count + 1) % 2 ^ 32 ∧
      v'.header.first = min v.header.first (i % 2 ^ 16) ∧
      v'.header.last = max v.header.last (i % 2 ^ 16) ∧
      presentAt v' i = true ∧
      slotAt v' i = some (encodedSlot t x) ∧
      v'.regions.length = max v.regions.length (i / 1024 + 1) ∧
      ∀ k, k ≠ i → presentAt v' k = presentAt v k := by
  have hmem := type_from_str_mem hparse
  have hwfw : WF { v with header := set_vector_type v.header t } t := by
    refine ⟨?_, ?_, hmem, hlen, hreg⟩
    · show has_type (set_vector_type v.header t) = true
      rcases hmem with hT | hT | hT <;> subst hT
      · exact (by decide : ((VECTOR_MAGIC ||| VEC_TYPE_INT) &&& VECTOR_MAGIC
          == VECTOR_MAGIC) = true)
      · exact (by decide : ((VECTOR_MAGIC ||| VEC_TYPE_DECIMAL) &&& VECTOR_MAGIC
          == VECTOR_MAGIC) = true)
      · exact (by decide : ((VECTOR_MAGIC ||| VEC_TYPE_DOUBLE) &&& VECTOR_MAGIC
          == VECTOR_MAGIC) = true)
    · show get_vector_type (set_vector_type v.header t) = t
      rcases hmem with hT | hT | hT <;> subst hT
      · exact (by decide : (VECTOR_MAGIC ||| VEC_TYPE_INT) &&& 0xFF
          = VEC_TYPE_INT)
      · exact (by decide : (VECTOR_MAGIC ||| VEC_TYPE_DECIMAL) &&& 0xFF
          = VEC_TYPE_DECIMAL)
      · exact (by decide : (VECTOR_MAGIC ||| VEC_TYPE_DOUBLE) &&& 0xFF
          = VEC_TYPE_DOUBLE)
  obtain ⟨v', hset, hwf', htf, hc, hf, hl, hpr, hsl, hln, hmono, hframe⟩ :=
    set_value_spec { v with header := set_vector_type v.header t } t i x hwfw hi
  refine ⟨v', ?_, hwf', htf, hc, hf, hl, hpr, hsl, hln, fun k hk => (hframe k hk).1⟩
  simp only [Vector.set]
  rw [hparse]
  dsimp only
  rw [if_pos (show (!has_type v.header) = true by rw [hht]; rfl)]
  exact hset

/-- `set` header facts for any state: a successful call updates `count`,
`first`, `last` as the source does, and stays within the region capacity
actually reachable. -/
lemma set_ok_header {v : Vector} {i : Nat} {ts : String} {x : ℚ} {u : Unit}
    {v' : Vector} (h : v.set i ts x = some (Except.ok u, v')) :
    v'.header.count = (v.header.count + 1) % 2 ^ 32 ∧
    v'.header.first = min v.header.first (i % 2 ^ 16) ∧
    v'.header.last = max v.header.last (i % 2 ^ 16) ∧
    v'.regions.length = max v.regions.length (i / 1024 + 1) ∧
    (i / 1024 < 64 ∨ i / 1024 < v.regions.length) := by
  unfold Vector.set at h
  cases hp : type_from_str ts with
  | none => rw [hp] at h; simp at h
  | some t =>
    rw [hp] at h
    dsimp only at h
    by_cases hht : has_type v.header = true
    · rw [if_neg (by rw [hht]; decide)] at h
      by_cases hit : is_type v.header t = true
      · rw [if_neg (by rw [hit]; decide)] at h
        exact (set_value_header_facts h).2 u rfl
      · have hif : is_type v.header t = false := by simpa using hit
        rw [if_pos (show (!is_type v.header t) = true by rw [hif]; rfl)] at h
        simp at h
    · have hhf : has_type v.header = false := by simpa using hht
      rw [if_pos (show (!has_type v.header) = true by rw [hhf]; rfl)] at h
      exact (set_value_header_facts h).2 u rfl

/-- Any `set` outcome on an already-typed vector preserves `type_field`. -/
lemma set_typed_type_field {v : Vector} {i : Nat} {ts : String} {x : ℚ}
    {r : Except String Unit} {v' : Vector} (hht : has_type v.header = true)
    (h : v.set i ts x = some (r, v')) :
    v'.header.type_field = v.header.type_field := by
  unfold Vector.set at h
  cases hp : type_from_str ts with
  | none =>
    rw [hp] at h
    simp only [Option.some.injEq, Prod.mk.injEq] at h
    rw [← h.2]
  | some t =>
    rw [hp] at h
    dsimp only at h
    rw [if_neg (by rw [hht]; decide)] at h
    by_cases hit : is_type v.header t = true
    · rw [if_neg (by rw [hit]; decide)] at h
      exact (set_value_header_facts h).1
    · have hif : is_type v.header t = false := by simpa using hit
      rw [if_pos (show (!is_type v.header t) = true by rw [hif]; rfl)] at h
      simp only [Option.some.injEq, Prod.mk.injEq] at h
      rw [← h.2]

/-- A successful `set` on an untyped vector locks `type_field` to
`VECTOR_MAGIC ||| tag` for the parsed tag. -/
lemma set_untyped_ok_type_field {v : Vector} {i : Nat} {ts : String} {x : ℚ}
    {u : Unit} {v' : Vector} (hht : has_type v.header = false)
    (h : v.set i ts x = some (Except.ok u, v')) :
    ∃ t, type_from_str ts = some t ∧
      v'.header.type_field = VECTOR_MAGIC ||| t := by
  unfold Vector.set at h
  cases hp : type_from_str ts with
  | none => rw [hp] at h; simp at h
  | some t =>
    rw [hp] at h
    dsimp only at h
    rw [if_pos (show (!has_type v.header) = true by rw [hht]; rfl)] at h
    exact ⟨t, rfl, (set_value_header_facts h).1⟩

/-- `get_decimal` on a well-formed decimal vector with an existing region and
a set presence bit returns the decode of the stored slot. -/
lemma get_decimal_spec {v : Vector} {i : Nat} {bs : List Nat}
    (hwf : WF v VEC_TYPE_DECIMAL) (hlt : i / 1024 < v.regions.length)
    (hpr : presentAt v i = true) (hsl : slotAt v i = some (SlotVal.dec bs)) :
    v.get_decimal i = some (Except.ok (convert_from_fixed_point bs 4)) := by
  simp only [Vector.get_decimal, Vector.get_region_info, REGION_SIZE]
  rw [if_pos hlt]
  rcases hG : v.regions.getD (i / 1024) none with _ | reg
  · rw [presentAt_none hG] at hpr; cases hpr
  cases reg with
  | Integer bm data =>
    have := hwf.2.2.2.2 (i / 1024)
    rw [hG] at this
    simp only [WFregion, VEC_TYPE_INT, VEC_TYPE_DECIMAL] at this
    exact absurd this.1 (by decide)
  | Decimal bm data =>
    dsimp only
    rw [presentAt_dec hG] at hpr
    rw [if_pos ((bitTest_true_iff bm (i % 1024)).mp hpr)]
    rw [slotAt_dec hG] at hsl
    simp only [Option.some.injEq, SlotVal.dec.injEq] at hsl
    rw [hsl]
  | Double bm data =>
    have := hwf.2.2.2.2 (i / 1024)
    rw [hG] at this
    simp only [WFregion, VEC_TYPE_DECIMAL, VEC_TYPE_DOUBLE] at this
    exact absurd this.1 (by decide)

/-! ### Byte-level lemmas for the codec -/

lemma and255_eq_mod (x : Nat) : x &&& 255 = x % 256 := by
  have h : (255 : Nat) = 2 ^ 8 - 1 := rfl
  rw [h, Nat.and_pow_two_sub_one_eq_mod]

lemma and255_of_lt {x : Nat} (h : x < 256) : x &&& 255 = x := by
  rw [and255_eq_mod]
  exact Nat.mod_eq_of_lt h

lemma reassemble (m : Nat) : ((m >>> 8) <<< 8) ||| (m &&& 255) = m := by
  apply Nat.eq_of_testBit_eq
  intro i
  have h255 : Nat.testBit 255 i = decide (i < 8) := by
    have h : (255 : Nat) = 2 ^ 8 - 1 := rfl
    rw [h, Nat.testBit_two_pow_sub_one]
  simp only [Nat.testBit_or, Nat.testBit_shiftLeft, Nat.testBit_shiftRight,
    Nat.testBit_and, h255]
  by_cases hi : 8 ≤ i
  · have h8 : 8 + (i - 8) = i := by omega
    simp [hi, h8, show ¬ i < 8 by omega]
  · simp [hi, show i < 8 by omega]

lemma shiftRight_lt_256 {n : Nat} (h : n < 2 ^ 64) : n >>> 56 < 256 := by
  rw [Nat.shiftRight_eq_div_pow]
  exact Nat.div_lt_of_lt_mul (by norm_num at h ⊢; omega)

/-- The decode loop recovers the value stored by the encode loop: folding the
eight big-endian bytes of `n < 2^64` reassembles `n`. -/
lemma beCombine_beBytes8 {n : Nat} (h : n < 2 ^ 64) :
    beCombine (beBytes8 n) = n := by
  have estep : ∀ s t : Nat, t = s + 8 →
      ((n >>> t) <<< 8) ||| ((n >>> s) &&& 255) = n >>> s := by
    intro s t hts
    subst hts
    rw [Nat.shiftRight_add n s 8]
    exact reassemble (n >>> s)
  simp only [beCombine, beBytes8, List.foldl]
  rw [Nat.zero_shiftLeft, Nat.zero_or, and255_of_lt (shiftRight_lt_256 h),
    estep 48 56 (by norm_num), estep 40 48 (by norm_num),
    estep 32 40 (by norm_num), estep 24 32 (by norm_num),
    estep 16 24 (by norm_num), estep 8 16 (by norm_num)]
  have hlast : ((n >>> 8) <<< 8) ||| (n &&& 255) = n := reassemble n
  exact hlast

/-! ### Trace lemmas over `runSets` -/

lemma runSets_count (ops : List (Nat × String × ℚ)) :
    ∀ v v1 : Vector, runSets v ops = some v1 → v.header.count < 2 ^ 32 →
      v1.header.count = (v.header.count + ops.length) % 2 ^ 32 := by
  induction ops with
  | nil =>
    intro v v1 h hlt
    simp only [runSets, Option.some.injEq] at h
    rw [← h, List.length_nil, Nat.add_zero, Nat.mod_eq_of_lt hlt]
  | cons p rest ih =>
    intro v v1 h hlt
    obtain ⟨i, ts, x⟩ := p
    simp only [runSets] at h
    cases hs : v.set i ts x with
    | none => rw [hs] at h; cases h
    | some pr =>
      obtain ⟨r, w⟩ := pr
      rw [hs] at h
      cases r with
      | error e => exact absurd h (by simp)
      | ok u =>
        have hcw : w.header.count = (v.header.count + 1) % 2 ^ 32 :=
          (set_ok_header hs).1
        have := ih w v1 h (by rw [hcw]; exact Nat.mod_lt _ (by norm_num))
        rw [this, hcw, List.length_cons, Nat.mod_add_mod]
        ring_nf

lemma runSets_first_zero (ops : List (Nat × String × ℚ)) :
    ∀ v v1 : Vector, runSets v ops = some v1 → v.header.first = 0 →
      v1.header.first = 0 := by
  induction ops with
  | nil =>
    intro v v1 h h0
    simp only [runSets, Option.some.injEq] at h
    rw [← h, h0]
  | cons p rest ih =>
    intro v v1 h h0
    obtain ⟨i, ts, x⟩ := p
    simp only [runSets] at h
    cases hs : v.set i ts x with
    | none => rw [hs] at h; cases h
    | some pr =>
      obtain ⟨r, w⟩ := pr
      rw [hs] at h
      cases r with
      | error e => exact absurd h (by simp)
      | ok u =>
        refine ih w v1 h ?_
        rw [(set_ok_header hs).2.1, h0]
        exact Nat.zero_min _

lemma runSets_last (ops : List (Nat × String × ℚ)) :
    ∀ v v1 : Vector, runSets v ops = some v1 → v.regions.length ≤ 64 →
      v1.header.last = ops.foldl (fun a p => max a p.1) v.header.last ∧
      v1.regions.length ≤ 64 := by
  induction ops with
  | nil =>
    intro v v1 h hlen
    simp only [runSets, Option.some.injEq] at h
    rw [← h]
    exact ⟨rfl, hlen⟩
  | cons p rest ih =>
    intro v v1 h hlen
    obtain ⟨i, ts, x⟩ := p
    simp only [runSets] at h
    cases hs : v.set i ts x with
    | none => rw [hs] at h; cases h
    | some pr =>
      obtain ⟨r, w⟩ := pr
      rw [hs] at h
      cases r with
      | error e => exact absurd h (by simp)
      | ok u =>
        obtain ⟨-, -, hla, hln, hb⟩ := set_ok_header hs
        have hi : i < 65536 := by
          rcases hb with hb | hb
          · omega
          · omega
        have hwlen : w.regions.length ≤ 64 := by
          rw [hln]
          refine Nat.max_le.mpr ⟨hlen, ?_⟩
          omega
        have := ih w v1 h hwlen
        refine ⟨?_, this.2⟩
        rw [this.1, List.foldl_cons, hla]
        congr 1
        rw [Nat.mod_eq_of_lt (by omega : i < 2 ^ 16)]

/-! ### Claim theorems -/

/-- C2: error atomicity — every `set` call that returns an error
(`InvalidType` from an unrecognized type name, or `TypeMismatch` from a
mismatched type) leaves the entire Vector — header, regions, data and
bitmaps — exactly unchanged. -/
theorem C2_error_atomicity :
    ∀ (v : Vector) (i : Nat) (ts : String) (x : ℚ) (e : String) (v' : Vector),
      v.set i ts x = some (Except.error e, v') → v' = v :=
  fun _ _ _ _ _ _ h => set_error_eq h

/-- Witness for C2 at a concrete input: an invalid type name leaves a fresh
vector unchanged. -/
theorem C2_error_atomicity_witness :
    Vector.new.setD 0 "bogus" 1 = Vector.new :=
  C2_error_atomicity Vector.new 0 "bogus" 1 "Invalid vector type specified"
    (Vector.new.setD 0 "bogus" 1) rfl

/-- C3 (failing input): `get_decimal(0)` on a freshly created Vector does not
return the `RegionNotInitialized` error the claim requires — the source
indexes the empty `regions` Vec out of bounds and panics (modelled `none`). -/
theorem C3_get_decimal_panics_on_fresh_vector :
    Vector.new.get_decimal 0 = none := rfl

/-- C4: the maximum addressable index is 65535 (a `set` there succeeds), but
a `set` at 65536 does not return an `IndexOutOfRange` error as the claim
requires — the source writes `header.regmap[64]` out of bounds of the fixed
`[u16; 64]` array and panics (modelled `none`). -/
theorem C4_no_index_guard :
    Vector.new.set 65536 "integer" 42 = none ∧
    (Vector.new.set 65535 "integer" 42).isSome = true := ⟨rfl, rfl⟩

/-- C5 (counterexample): after the single successful call `set(5)` on a fresh
Vector, `header.first` is 0, not 5 — `new()` initializes `first` to 0 and
`set` only min-accumulates, so `first` is not the smallest index ever
written. `last` is 5 as claimed. -/
theorem C5_counterexample :
    Vector.new.set 5 "integer" 42 =
      some (Except.ok (), Vector.new.setD 5 "integer" 42) ∧
    (Vector.new.setD 5 "integer" 42).header.first = 0 ∧
    (Vector.new.setD 5 "integer" 42).header.last = 5 :=
  ⟨rfl, rfl, rfl⟩

/-- C5 (amended): for every sequence of successful `set` calls starting from
`new()`, `header.first` equals `min(0, smallest index written)`, i.e. it is
always 0 because `new()` initializes it to 0 and `set` min-accumulates;
`header.last` equals the largest index ever written (max-accumulated from 0,
which is the largest written index since indices are nonnegative). -/
theorem C5_amended_header_bounds (ops : List (Nat × String × ℚ)) (v1 : Vector)
    (h : runSets Vector.new ops = some v1) :
    v1.header.first = 0 ∧ v1.header.last = listMax (ops.map Prod.fst) := by
  refine ⟨runSets_first_zero ops Vector.new v1 h rfl, ?_⟩
  have := (runSets_last ops Vector.new v1 h (by decide)).1
  rw [this]
  unfold listMax
  rw [List.foldl_map]
  rfl

/-- Witness for C5's amended claim on the single-write trace `set(5)`. -/
theorem C5_amended_header_bounds_witness :
    (Vector.new.setD 5 "integer" 42).header.first = 0 ∧
    (Vector.new.setD 5 "integer" 42).header.last =
      listMax ([((5 : Nat), ("integer", (42 : ℚ)))].map Prod.fst) :=
  C5_amended_header_bounds [(5, "integer", 42)]
    (Vector.new.setD 5 "integer" 42) rfl

/-- C6: count semantics — `count` starts at 0, a successful `set` increments
it by exactly 1 (as a `u32`, i.e. modulo `2^32`) even when the index was
already populated, a failed `set` leaves it unchanged, and after any sequence
of successful `set` calls from `new()` it equals the number of calls. -/
theorem C6_count_semantics :
    Vector.new.header.count = 0 ∧
    (∀ (v : Vector) (i : Nat) (ts : String) (x : ℚ) (u : Unit) (v' : Vector),
      v.set i ts x = some (Except.ok u, v') →
      v'.header.count = (v.header.count + 1) % 2 ^ 32) ∧
    (∀ (v : Vector) (i : Nat) (ts : String) (x : ℚ) (e : String) (v' : Vector),
      v.set i ts x = some (Except.error e, v') →
      v'.header.count = v.header.count) ∧
    ∀ (ops : List (Nat × String × ℚ)) (v1 : Vector),
      runSets Vector.new ops = some v1 →
      v1.header.count = ops.length % 2 ^ 32 := by
  refine ⟨rfl, ?_, ?_, ?_⟩
  · intro v i ts x u v' h
    exact (set_ok_header h).1
  · intro v i ts x e v' h
    rw [set_error_eq h]
  · intro ops v1 h
    have := runSets_count ops Vector.new v1 h (by decide)
    rw [show Vector.new.header.count = 0 from rfl] at this
    simpa using this

/-- Witness for C6: a successful `set` on a fresh vector takes `count` from
0 to 1, and re-setting the same index takes it to 2. -/
theorem C6_count_semantics_witness :
    (Vector.new.setD 0 "integer" 1).header.count =
      (Vector.new.header.count + 1) % 2 ^ 32 ∧
    ((Vector.new.setD 0 "integer" 1).setD 0 "integer" 2).header.count =
      ((Vector.new.setD 0 "integer" 1).header.count + 1) % 2 ^ 32 :=
  ⟨C6_count_semantics.2.1 Vector.new 0 "integer" 1 ()
      (Vector.new.setD 0 "integer" 1) rfl,
    C6_count_semantics.2.1 (Vector.new.setD 0 "integer" 1) 0 "integer" 2 ()
      ((Vector.new.setD 0 "integer" 1).setD 0 "integer" 2) rfl⟩

/-- C1: type lock-in — a Vector starts untyped; it becomes typed (with the
magic marker and the parsed tag) on its first successful `set`; a `set` on a
typed vector whose parsed tag differs is rejected with `TypeMismatch` before
any mutation; and no `set` outcome on a typed vector ever changes
`type_field` or returns the vector to the untyped state. -/
theorem C1_type_lock_in :
    has_type Vector.new.header = false ∧
    (∀ (v : Vector) (i : Nat) (ts : String) (x : ℚ) (u : Unit) (v' : Vector),
      has_type v.header = false → v.set i ts x = some (Except.ok u, v') →
      has_type v'.header = true ∧
      ∃ t, type_from_str ts = some t ∧
        v'.header.type_field = VECTOR_MAGIC ||| t) ∧
    (∀ (v : Vector) (i : Nat) (ts : String) (x : ℚ) (t : Nat),
      has_type v.header = true → type_from_str ts = some t →
      is_type v.header t = false →
      v.set i ts x =
        some (Except.error "Cannot change vector type after initialization",
          v)) ∧
    ∀ (v : Vector) (i : Nat) (ts : String) (x : ℚ) (r : Except String Unit)
      (v' : Vector), has_type v.header = true →
      v.set i ts x = some (r, v') →
      v'.header.type_field = v.header.type_field ∧
      has_type v'.header = true := by
  refine ⟨rfl, ?_, ?_, ?_⟩
  · intro v i ts x u v' hht h
    obtain ⟨t, hp, htf⟩ := set_untyped_ok_type_field hht h
    have hmem := type_from_str_mem hp
    refine ⟨?_, t, hp, htf⟩
    unfold has_type
    rw [htf]
    rcases hmem with hT | hT | hT <;> subst hT <;> decide
  · intro v i ts x t hht hp hit
    simp only [Vector.set]
    rw [hp]
    dsimp only
    rw [if_neg (by rw [hht]; decide),
      if_pos (show (!is_type v.header t) = true by rw [hit]; rfl)]
  · intro v i ts x r v' hht h
    have htf := set_typed_type_field hht h
    exact ⟨htf, by rw [has_type_congr htf]; exact hht⟩

/-- Witness for C1 at concrete inputs: a fresh vector is untyped; after
`set(0, "integer", 1)` it is typed integer; a later decimal `set` is rejected
with the exact `TypeMismatch` error and no state change. -/
theorem C1_type_lock_in_witness :
    (has_type (Vector.new.setD 0 "integer" 1).header = true ∧
      ∃ t, type_from_str "integer" = some t ∧
        (Vector.new.setD 0 "integer" 1).header.type_field
          = VECTOR_MAGIC ||| t) ∧
    (Vector.new.setD 0 "integer" 1).set 3 "decimal" 2 =
      some (Except.error "Cannot change vector type after initialization",
        Vector.new.setD 0 "integer" 1) :=
  ⟨C1_type_lock_in.2.1 Vector.new 0 "integer" 1 ()
      (Vector.new.setD 0 "integer" 1) rfl rfl,
    C1_type_lock_in.2.2.1 (Vector.new.setD 0 "integer" 1) 3 "decimal" 2
      VEC_TYPE_DECIMAL rfl rfl rfl⟩

/-- C8: encoding format — for every value and scale, `convert_to_fixed_point`
produces `Ok` with exactly 9 bytes: byte 0 is 1 iff the scaled, truncated,
saturated `i64` value is negative (0 otherwise, including for 0), every byte
fits in a `u8`, and bytes 1–8 hold the big-endian magnitude (absolute value)
of the scaled integer, as recovered by the big-endian reconstruction fold. -/
theorem C8_encoding_format (value : ℚ) (scale : Nat) :
    ∃ b, convert_to_fixed_point value scale = Except.ok b ∧
      b.length = 9 ∧
      b.getD 0 9 =
        (if rat_as_i64 (value * (10 : ℚ) ^ scale) < 0 then 1 else 0) ∧
      (∀ k, k < 9 → b.getD k 256 < 256) ∧
      beCombine (b.drop 1) = (rat_as_i64 (value * (10 : ℚ) ^ scale)).natAbs := by
  refine ⟨fixedBytes value scale, convert_to_fixed_point_eq value scale,
    rfl, rfl, ?_, ?_⟩
  · intro k hk
    have hand : ∀ m : Nat, m &&& 255 < 256 := fun m =>
      Nat.lt_succ_of_le (Nat.and_le_right)
    interval_cases k
    · simp only [fixedBytes, List.getD]
      split <;> norm_num
    all_goals exact hand _
  · have habs : (rat_as_i64 (value * (10 : ℚ) ^ scale)).natAbs < 2 ^ 64 := by
      have h1 : i64_MIN ≤ rat_as_i64 (value * (10 : ℚ) ^ scale) :=
        le_max_left _ _
      have h2 : rat_as_i64 (value * (10 : ℚ) ^ scale) ≤ i64_MAX := by
        unfold rat_as_i64
        exact max_le (by unfold i64_MIN i64_MAX; omega) (min_le_left _ _)
      unfold i64_MIN at h1
      unfold i64_MAX at h2
      omega
    exact beCombine_beBytes8 habs

/-- Witness for C8 at a concrete input (value `-5`, scale `1`). -/
theorem C8_encoding_format_witness :
    ∃ b, convert_to_fixed_point (-5) 1 = Except.ok b ∧
      b.length = 9 ∧
      b.getD 0 9 = (if rat_as_i64 ((-5) * (10 : ℚ) ^ 1) < 0 then 1 else 0) ∧
      (∀ k, k < 9 → b.getD k 256 < 256) ∧
      beCombine (b.drop 1) = (rat_as_i64 ((-5) * (10 : ℚ) ^ 1)).natAbs :=
  C8_encoding_format (-5) 1

/-- C10: the fixed-point encoder is total — it returns `Ok` for every input
(the `Result` error branch is dead); out-of-range scaled magnitudes are
silently clamped by the saturating float-to-integer cast; consequently a
decimal `set` on a decimal-typed vector never returns an error. -/
theorem C10_encoder_total :
    (∀ (value : ℚ) (scale : Nat),
      ∃ b, convert_to_fixed_point value scale = Except.ok b) ∧
    (∀ q : ℚ, (2 : ℚ) ^ 63 ≤ q → rat_as_i64 q = i64_MAX) ∧
    (∀ q : ℚ, q ≤ -((2 : ℚ) ^ 63) → rat_as_i64 q = i64_MIN) ∧
    ∀ (v : Vector) (i : Nat) (x : ℚ) (e : String) (vE : Vector),
      has_type v.header = true →
      get_vector_type v.header = VEC_TYPE_DECIMAL →
      v.set i "decimal" x ≠ some (Except.error e, vE) := by
  refine ⟨fun value scale => ⟨_, convert_to_fixed_point_eq value scale⟩,
    ?_, ?_, ?_⟩
  · intro q hq
    have h0 : (0 : ℚ) ≤ q := le_trans (by positivity) hq
    have hfl : (2 ^ 63 : ℤ) ≤ Rat.floor q := by
      rw [Rat.le_floor]
      push_cast
      exact hq
    unfold rat_as_i64 rat_trunc
    rw [if_pos h0]
    have h1 : min i64_MAX (Rat.floor q) = i64_MAX := by
      apply min_eq_left
      unfold i64_MAX
      omega
    rw [h1]
    apply max_eq_right
    unfold i64_MIN i64_MAX
    norm_num
  · intro q hq
    have h0 : ¬ (0 : ℚ) ≤ q := by
      intro hc
      have hcon : (0 : ℚ) ≤ -(2 ^ 63 : ℚ) := le_trans hc hq
      norm_num at hcon
    have hfl : (2 ^ 63 : ℤ) ≤ Rat.floor (-q) := by
      rw [Rat.le_floor]
      push_cast
      linarith
    unfold rat_as_i64 rat_trunc
    rw [if_neg h0]
    have h1 : min i64_MAX (-Rat.floor (-q)) = -Rat.floor (-q) := by
      apply min_eq_right
      unfold i64_MAX
      omega
    rw [h1]
    apply max_eq_left
    unfold i64_MIN
    omega
  · intro v i x e vE hht htag h
    have hp : type_from_str "decimal" = some VEC_TYPE_DECIMAL := rfl
    simp only [Vector.set] at h
    rw [hp] at h
    dsimp only at h
    rw [if_neg (by rw [hht]; decide)] at h
    have hit : is_type v.header VEC_TYPE_DECIMAL = true := by
      unfold is_type
      simp [htag]
    rw [if_neg (by rw [hit]; decide)] at h
    exact set_value_no_error v VEC_TYPE_DECIMAL i x e htag
      (Or.inr (Or.inl rfl)) vE h

/-- Witness for C10: concrete encode success, concrete saturation at both
ends, and a concrete decimal `set` that cannot error. -/
theorem C10_encoder_total_witness :
    (∃ b, convert_to_fixed_point 5 4 = Except.ok b) ∧
    rat_as_i64 ((10 : ℚ) ^ 30) = i64_MAX ∧
    rat_as_i64 (-((10 : ℚ) ^ 30)) = i64_MIN ∧
    (Vector.new.setD 0 "decimal" 1).set 7 "decimal" 2 ≠
      some (Except.error "boom", Vector.new) :=
  ⟨C10_encoder_total.1 5 4,
    C10_encoder_total.2.1 _ (by norm_num),
    C10_encoder_total.2.2.1 _ (by norm_num),
    C10_encoder_total.2.2.2 (Vector.new.setD 0 "decimal" 1) 7 2 "boom"
      Vector.new rfl rfl⟩

lemma encDec4_eq (x : ℚ) :
    encDec4 x = convert_from_fixed_point (fixedBytes x 4) 4 := rfl

/-- C9: independence of distinct indices — for every supported type and
distinct in-range indices, setting both from a fresh vector succeeds and
leaves each value's slot and presence bit independently readable; in
particular indices 1023 and 1024 land in two distinct regions, both
allocated, and both `get_decimal`-readable. -/
theorem C9_index_independence :
    (∀ (t : Nat) (ts : String) (x y : ℚ) (i j : Nat),
      type_from_str ts = some t → i < 65536 → j < 65536 → i ≠ j →
      ∃ v2, runSets Vector.new [(i, ts, x), (j, ts, y)] = some v2 ∧
        presentAt v2 i = true ∧ slotAt v2 i = some (encodedSlot t x) ∧
        presentAt v2 j = true ∧ slotAt v2 j = some (encodedSlot t y)) ∧
    ∀ q w : ℚ, ∃ u2,
      runSets Vector.new [(1023, "decimal", q), (1024, "decimal", w)]
        = some u2 ∧
      u2.regions.length = 2 ∧
      (u2.regions.getD 0 none).isSome = true ∧
      (u2.regions.getD 1 none).isSome = true ∧
      u2.get_decimal 1023 = some (Except.ok (encDec4 q)) ∧
      u2.get_decimal 1024 = some (Except.ok (encDec4 w)) := by
  have main : ∀ (t : Nat) (ts : String) (x y : ℚ) (i j : Nat),
      type_from_str ts = some t → i < 65536 → j < 65536 → i ≠ j →
      ∃ v2, runSets Vector.new [(i, ts, x), (j, ts, y)] = some v2 ∧
        WF v2 t ∧
        presentAt v2 i = true ∧ slotAt v2 i = some (encodedSlot t x) ∧
        presentAt v2 j = true ∧ slotAt v2 j = some (encodedSlot t y) ∧
        v2.regions.length = max (i / 1024 + 1) (j / 1024 + 1) := by
    intro t ts x y i j hp hi hj hij
    obtain ⟨v1, hs1, hwf1, htf1, hc1, hf1, hl1, hpr1, hsl1, hln1, hfr1⟩ :=
      set_untyped_spec Vector.new t i ts x rfl hp hi (by decide)
        (fun n => by
          show WFregion t (List.getD [] n none)
          rw [List.getD_eq_default _ _ (by simp)]
          trivial)
    obtain ⟨v2, hs2, hwf2, htf2, hc2, hf2, hl2, hpr2, hsl2, hln2, hmono2,
      hfr2⟩ := set_typed_spec v1 t j ts y hwf1 hp hj
    have hrun : runSets Vector.new [(i, ts, x), (j, ts, y)] = some v2 := by
      simp only [runSets]
      rw [hs1]
      dsimp only
      rw [hs2]
    refine ⟨v2, hrun, hwf2, ?_, ?_, hpr2, hsl2, ?_⟩
    · rw [(hfr2 i hij).1]
      exact hpr1
    · rw [(hfr2 i hij).2 (presentAt_isSome hpr1)]
      exact hsl1
    · rw [hln2, hln1, show Vector.new.regions.length = 0 from rfl]
      simp
  refine ⟨fun t ts x y i j hp hi hj hij => ?_, fun q w => ?_⟩
  · obtain ⟨v2, hrun, _, h1, h2, h3, h4, _⟩ :=
      main t ts x y i j hp hi hj hij
    exact ⟨v2, hrun, h1, h2, h3, h4⟩
  · obtain ⟨u2, hrun, hwf2, hprq, hslq, hprw, hslw, hlen⟩ :=
      main VEC_TYPE_DECIMAL "decimal" q w 1023 1024 rfl (by decide)
        (by decide) (by decide)
    have hlen2 : u2.regions.length = 2 := by
      rw [hlen]
      norm_num
    have hiq := presentAt_isSome hprq
    have hiw := presentAt_isSome hprw
    rw [show (1023 : Nat) / 1024 = 0 from by norm_num] at hiq
    rw [show (1024 : Nat) / 1024 = 1 from by norm_num] at hiw
    have hgq : u2.get_decimal 1023 = some (Except.ok (encDec4 q)) := by
      rw [encDec4_eq]
      refine get_decimal_spec hwf2 ?_ hprq ?_
      · rw [hlen2]
        norm_num
      · rw [hslq, encodedSlot_dec]
    have hgw : u2.get_decimal 1024 = some (Except.ok (encDec4 w)) := by
      rw [encDec4_eq]
      refine get_decimal_spec hwf2 ?_ hprw ?_
      · rw [hlen2]
        norm_num
      · rw [hslw, encodedSlot_dec]
    exact ⟨u2, hrun, hlen2, hiq, hiw, hgq, hgw⟩

/-- Witness for C9 at concrete inputs: integer writes at indices 0 and 5. -/
theorem C9_index_independence_witness :
    ∃ v2, runSets Vector.new [(0, "integer", (1 : ℚ)), (5, "integer", (2 : ℚ))]
        = some v2 ∧
      presentAt v2 0 = true ∧
      slotAt v2 0 = some (encodedSlot VEC_TYPE_INT 1) ∧
      presentAt v2 5 = true ∧
      slotAt v2 5 = some (encodedSlot VEC_TYPE_INT 2) :=
  C9_index_independence.1 VEC_TYPE_INT "integer" 1 2 0 5 rfl (by decide)
    (by decide) (by decide)

end IrisVector
